import Mathlib

/-!
# Verification of the multirpg-nodejsbot competitive match engine

Shallow embedding of the core of `src/core/TournamentSystem.js`,
`src/core/QuestSystem.js` (matchmaking / rankings) and
`src/core/GlobalPlayerSystem.js` (battle resolver), together with proofs
about the embedded operations.

Conventions:
* JS numbers that stay integral are modelled as `Int`; computations that
  mix in fractional constants (`* 1.5`, `* 0.95`, prize fractions) are
  carried out in `Rat` with the explicit `Math.floor` / `Math.round`
  coercions of the source (`Int.floor`, `jsRound`).
* JS `Map`s are association lists (`List (key × value)`) preserving
  insertion order, which matches `Map` iteration order in the source.
* `Math.random()` draws are passed in as explicit parameters
  (e.g. the critical-hit Boolean, the shuffled roster).
-/

namespace MultiRPG

/-- `Math.round x` in JavaScript: round half towards positive infinity. -/
def jsRound (q : ℚ) : ℤ := ⌊q + 1/2⌋

/-- `x || d` for a possibly-absent JS number: `undefined` and `0` are falsy. -/
def jsOrNum (x : Option ℤ) (d : ℤ) : ℤ :=
  match x with
  | none => d
  | some v => if v = 0 then d else v

abbrev PlayerId := String

/-! ## Tournament system (`src/core/TournamentSystem.js`) -/

/-- Status of a bracket match (`match.status` in the source). -/
inductive MatchStatus where
  | pending
  | active
  | bye
  | completed
  deriving DecidableEq, Repr

/-- A bracket match as built by `createBracket` / `completeRound`. -/
structure TMatch where
  round : ℕ
  player1 : PlayerId
  player2 : Option PlayerId
  winner : Option PlayerId
  status : MatchStatus
  deriving DecidableEq, Repr

/-- The pairing loop shared by `createBracket` (round 0) and
`completeRound` (later rounds): walk the list two at a time; a trailing
unpaired player becomes a bye match whose winner is that player. -/
def makeRoundMatches (r : ℕ) : List PlayerId → List TMatch
  | [] => []
  | [p] => [⟨r, p, none, some p, .bye⟩]
  | p :: q :: rest => ⟨r, p, some q, none, .pending⟩ :: makeRoundMatches r rest

/-- Bracket state (`bracket` object in the source; `matches` is the
concatenation of the rounds and is omitted). -/
structure Bracket where
  rounds : List (List TMatch)
  currentRound : ℕ
  deriving Repr

/-- `createBracket` after the `_.shuffle` call: the argument is the
already-shuffled roster (the shuffle is a uniformly random permutation
supplied by lodash and is passed in here explicitly). -/
def createBracket (shuffledParticipants : List PlayerId) : Bracket :=
  { rounds := [makeRoundMatches 0 shuffledParticipants]
    currentRound := 0 }

/-- `startNextRound` starts a PvP battle exactly for the matches of the
current round whose status is `pending` (bye matches are skipped by the
filter); this is the set of matches handed to the battle system. -/
def matchesToBattle (round : List TMatch) : List TMatch :=
  round.filter (fun m => m.status = .pending)

/-- Tournament status (`tournament.status`). -/
inductive TStatus where
  | scheduled
  | active
  | completed
  deriving DecidableEq, Repr

/-- The slice of the `tournament` object the orchestration logic reads. -/
structure Tournament where
  status : TStatus
  winner : Option PlayerId
  participants : List PlayerId
  entryFee : ℤ
  deriving Repr

/-- `currentRound.map(m => m.winner).filter(w => w)` in `completeRound`. -/
def roundWinners (ms : List TMatch) : List PlayerId :=
  ms.filterMap (·.winner)

/-- `completeRound`: collect the winners of the current round; with exactly
one winner the tournament completes with that winner as champion
(`completeTournament` sets `status` and `winner`), otherwise the winners are
paired into a new round appended to the bracket. -/
def completeRound (t : Tournament) (b : Bracket) : Tournament × Bracket :=
  let cur := b.rounds.getD b.currentRound []
  let ws := roundWinners cur
  if ws.length = 1 then
    ({ t with status := .completed, winner := ws.head? }, b)
  else
    (t, { b with
            currentRound := b.currentRound + 1
            rounds := b.rounds ++ [makeRoundMatches (b.currentRound + 1) ws] })

/-- `getTournamentStandings`: the champion first, then every winner
recorded in the final round that differs from the champion, in match
order. -/
def getTournamentStandings (winner : Option PlayerId)
    (finalRound : List TMatch) : List PlayerId :=
  (match winner with | some w => [w] | none => []) ++
    (finalRound.filterMap (·.winner)).filter (fun w => winner ≠ some w)

/-- One prize entry produced by `calculatePrizes`
(`prizes[playerId] = {position, gold, percentage}`). -/
structure Prize where
  playerId : PlayerId
  position : ℕ
  gold : ℤ
  percentage : ℚ
  deriving DecidableEq, Repr

/-- Inner loop of `calculatePrizes` for one prize-pool bucket
`(percentage, places)`: `places` consecutive positions all paid
`floor(totalPool · percentage)`, skipping positions beyond the standings. -/
def payBucket (standings : List PlayerId) (totalPool : ℤ) (percentage : ℚ)
    (position : ℕ) : ℕ → List Prize
  | 0 => []
  | places + 1 =>
    (if h : position - 1 < standings.length then
      [⟨standings.get ⟨position - 1, h⟩, position,
        ⌊(totalPool : ℚ) * percentage⌋, percentage⟩]
     else []) ++ payBucket standings totalPool percentage (position + 1) places

/-- `calculatePrizes`: walk the prize-pool entries in order keeping a
running `position` counter (starting at 1); each entry `(percentage,
places)` pays `places` consecutive positions, and a position is paid only
while `position <= standings.length`. -/
def calculatePrizes (prizePool : List (ℚ × ℕ)) (standings : List PlayerId)
    (totalPool : ℤ) : List Prize :=
  go prizePool 1
where
  go : List (ℚ × ℕ) → ℕ → List Prize
    | [], _ => []
    | (percentage, places) :: rest, position =>
      payBucket standings totalPool percentage position places ++
        go rest (position + places)

/-! ## Association-list maps

JS `Map`s: insertion order is preserved; `set` on an existing key updates in
place, `set` on a fresh key appends; `delete` removes the entry. -/

/-- `map.get k` on an association list. -/
def getAssoc {β : Type} (m : List (PlayerId × β)) (k : PlayerId) : Option β :=
  match m with
  | [] => none
  | (a, b) :: rest => if a = k then some b else getAssoc rest k

/-- `map.set k v` on an association list: replace the entry in place when
the key is present (keys are unique), append otherwise. -/
def setAssoc {β : Type} (m : List (PlayerId × β)) (k : PlayerId) (v : β) :
    List (PlayerId × β) :=
  match m with
  | [] => [(k, v)]
  | (a, b) :: rest => if a = k then (k, v) :: rest else (a, b) :: setAssoc rest k v

/-- `map.delete k` on an association list. -/
def eraseAssoc {β : Type} (m : List (PlayerId × β)) (k : PlayerId) :
    List (PlayerId × β) :=
  m.filter (fun e => e.1 ≠ k)

/-- `history.splice(0, history.length - cap)` after a push: keep the last
`cap` entries. -/
def capHistory {α : Type} (cap : ℕ) (h : List α) : List α :=
  if h.length > cap then h.drop (h.length - cap) else h

/-! ## Battle resolver (`src/core/GlobalPlayerSystem.js`) -/

/-- `battle.type` (only `pve` and `pvp` battles are ever created). -/
inductive BattleKind where
  | pve
  | pvp
  deriving DecidableEq, Repr

/-- The monster fields the battle logic reads. -/
structure Monster where
  level : ℤ
  hp : ℤ
  attack : ℤ
  defense : ℤ
  deriving DecidableEq, Repr

/-- `battle.status`. -/
inductive BStatus where
  | active
  | completed
  deriving DecidableEq, Repr

/-- `action.type` of a submitted turn. -/
inductive ActionType where
  | attack
  | other
  deriving DecidableEq, Repr

/-- A turn action: `{type, damage}` (`damage` may be absent). -/
structure Action where
  type : ActionType
  damage : Option ℤ
  deriving DecidableEq, Repr

/-- The turn record built by `processTurn` and filled in by the
`processPvETurn` / `processPvPTurn` helpers. -/
structure Turn where
  attacker : PlayerId
  action : Action
  damage : ℤ
  result : String
  monsterDamage : Option ℤ
  defender : Option PlayerId
  deriving DecidableEq, Repr

/-- The battle object. PvE battles carry a `monster` and no per-player HP
(`startPvEBattle` stores only `participants` and `monster`); PvP battles
carry a `players` map from player id to that player's HP. -/
structure Battle where
  id : String
  type : BattleKind
  participants : List PlayerId
  monster : Option Monster
  players : List (PlayerId × ℤ)
  status : BStatus
  winner : Option PlayerId
  turns : List Turn
  deriving DecidableEq, Repr

/-- `recordBattle` history entry (battle id and win/loss result). -/
structure HistoryEntry where
  battleId : String
  result : String
  deriving DecidableEq, Repr

/-- Events emitted by the battle resolver. -/
inductive BattleEvent where
  | battleEnded (battle : Battle)
  | turnProcessed (battle : Battle) (turn : Turn)
  deriving DecidableEq, Repr

/-- The battle resolver's mutable state. -/
structure BattleSystem where
  activeBattles : List (String × Battle)
  battleHistory : List (PlayerId × List HistoryEntry)
  events : List BattleEvent
  deriving DecidableEq, Repr

/-- `getPlayerLevel` is a placeholder in the source and always returns 1. -/
def getPlayerLevel (_playerId : PlayerId) : ℤ := 1

/-- `calculateDamage` for PvE. The critical-hit draw (`Math.random() < 0.1`)
is the explicit `isCritical` parameter. In the critical branch the source
executes `turn.critical = true` with no `turn` variable in scope (class
bodies are strict mode), which raises a `ReferenceError`; the function
never returns in that case. -/
def calculateDamage (playerId : PlayerId) (monster : Monster) (action : Action)
    (isCritical : Bool) : Except String ℤ :=
  let baseDamage := jsOrNum action.damage 50
  let levelBonus := getPlayerLevel playerId * 2
  let damage := baseDamage + levelBonus
  if isCritical then
    .error "ReferenceError: turn is not defined"
  else
    .ok (max 1 (damage - monster.defense))

/-- `calculateMonsterDamage`: `floor(max(1, attack - playerLevel * 1.5))`. -/
def calculateMonsterDamage (monster : Monster) (playerId : PlayerId) : ℤ :=
  ⌊max 1 ((monster.attack : ℚ) - (getPlayerLevel playerId : ℚ) * (3/2))⌋

/-- `calculatePvPDamage`:
`floor(max(1, (action.damage || 50) + attackerLevel*2 - defenderLevel*1.5))`. -/
def calculatePvPDamage (attackerId defenderId : PlayerId) (action : Action) : ℤ :=
  ⌊max 1 ((jsOrNum action.damage 50 : ℚ) + (getPlayerLevel attackerId : ℚ) * 2
      - (getPlayerLevel defenderId : ℚ) * (3/2))⌋

/-- `processPvETurn`: on an attack, damage the monster (HP floored at 0);
if the monster survives, a counter-damage value is computed and stored in
the turn record, but it is never applied to any HP. -/
def processPvETurn (battle : Battle) (turn : Turn) (isCritical : Bool) :
    Except String (Battle × Turn) :=
  match battle.monster with
  | none => .ok (battle, turn)
  | some monster =>
    if turn.action.type = .attack then
      match calculateDamage (battle.participants.headD "") monster turn.action
          isCritical with
      | .error e => .error e
      | .ok damage =>
        let monster' := { monster with hp := max 0 (monster.hp - damage) }
        let turn' := { turn with damage := damage, result := "hit" }
        let counter := calculateMonsterDamage monster' (battle.participants.headD "")
        let turn'' :=
          if 0 < monster'.hp then { turn' with monsterDamage := some counter }
          else turn'
        .ok ({ battle with monster := some monster' }, turn'')
    else .ok (battle, turn)

/-- `battle.players[defenderId].hp = Math.max(0, hp - damage)`, guarded by
the truthiness of `battle.players[defenderId]`. -/
def applyPvPDamage (players : List (PlayerId × ℤ)) (defenderId : PlayerId)
    (damage : ℤ) : List (PlayerId × ℤ) :=
  if (getAssoc players defenderId).isSome then
    players.map (fun e => if e.1 = defenderId then (e.1, max 0 (e.2 - damage)) else e)
  else players

/-- `processPvPTurn`: the defender is the first participant different from
the attacker; on an attack their HP is reduced, floored at 0. -/
def processPvPTurn (battle : Battle) (turn : Turn) : Battle × Turn :=
  let defenderId := battle.participants.find? (fun i => i ≠ turn.attacker)
  if turn.action.type = .attack then
    let damage := calculatePvPDamage turn.attacker (defenderId.getD "") turn.action
    let turn' := { turn with damage := damage, result := "hit", defender := defenderId }
    match defenderId with
    | none => (battle, turn')
    | some d => ({ battle with players := applyPvPDamage battle.players d damage }, turn')
  else (battle, turn)

/-- `isBattleOver`: PvE checks only the monster's HP; PvP checks whether any
player's HP is `<= 0`. -/
def isBattleOver (battle : Battle) : Bool :=
  match battle.type with
  | .pve => match battle.monster with
    | some m => m.hp ≤ 0
    | none => false
  | .pvp => battle.players.any (fun e => e.2 ≤ 0)

/-- `recordBattle`: push a win/loss entry for every participant, each
history capped at the last 100 entries. -/
def recordBattle (hist : List (PlayerId × List HistoryEntry)) (battle : Battle) :
    List (PlayerId × List HistoryEntry) :=
  battle.participants.foldl (fun hs pid =>
    setAssoc hs pid (capHistory 100 ((getAssoc hs pid).getD [] ++
      [⟨battle.id, if battle.winner = some pid then "win" else "loss"⟩])) ) hist

/-- `endBattle`: mark the battle completed, compute the winner (PvE: the
sole participant iff the monster is dead; PvP: the first player with
positive HP), record history, drop the battle from the active set and emit
`battleEnded`. -/
def endBattle (sys : BattleSystem) (battle : Battle) : BattleSystem × Battle :=
  let winner : Option PlayerId :=
    match battle.type with
    | .pve =>
      match battle.monster with
      | some m => if m.hp ≤ 0 then battle.participants.head? else none
      | none => none
    | .pvp => (battle.players.find? (fun e => 0 < e.2)).map (·.1)
  let battle' := { battle with status := .completed, winner := winner }
  ({ sys with
      battleHistory := recordBattle sys.battleHistory battle'
      activeBattles := eraseAssoc sys.activeBattles battle.id
      events := sys.events ++ [.battleEnded battle'] },
   battle')

/-- `processTurn`: unknown (or already completed and hence removed) battle
ids fail with `Battle not found`; otherwise run the PvE/PvP turn, append it
to the turn log, and end the battle if any tracked HP is exhausted. A
thrown error leaves the state unchanged. -/
def processTurn (sys : BattleSystem) (battleId : String) (attackerId : PlayerId)
    (action : Action) (isCritical : Bool) :
    BattleSystem × Except String Battle :=
  match getAssoc sys.activeBattles battleId with
  | none => (sys, .error "Battle not found")
  | some battle =>
    let turn0 : Turn :=
      { attacker := attackerId, action := action, damage := 0,
        result := "miss", monsterDamage := none, defender := none }
    let step : Except String (Battle × Turn) :=
      match battle.type with
      | .pve => processPvETurn battle turn0 isCritical
      | .pvp => .ok (processPvPTurn battle turn0)
    match step with
    | .error e => (sys, .error e)
    | .ok (b1, turn) =>
      let b2 := { b1 with turns := b1.turns ++ [turn] }
      let sys1 := { sys with activeBattles := setAssoc sys.activeBattles battleId b2 }
      if isBattleOver b2 then
        let (sys2, b3) := endBattle sys1 b2
        ({ sys2 with events := sys2.events ++ [.turnProcessed b3 turn] }, .ok b3)
      else
        ({ sys1 with events := sys1.events ++ [.turnProcessed b2 turn] }, .ok b2)

/-! ## Match queue and rankings (`src/core/QuestSystem.js`) -/

/-- Matchmaking criteria attached to a request by `requestMatch`. -/
structure Criteria where
  minLevel : ℤ
  maxLevel : ℤ
  preferCrossNetwork : Bool
  maxWaitTime : ℤ
  rankingRange : ℤ
  deriving DecidableEq, Repr

/-- The player fields matchmaking reads. -/
structure Player where
  globalId : PlayerId
  level : ℤ
  networkId : String
  deriving DecidableEq, Repr

/-- A queued match request. -/
structure MatchRequest where
  id : String
  player : Player
  timestamp : ℤ
  criteria : Criteria
  deriving DecidableEq, Repr

/-- A `matchHistory` entry written by `recordMatch`. -/
structure MatchRecord where
  opponentId : PlayerId
  timestamp : ℤ
  result : String
  deriving DecidableEq, Repr

/-- The match object built by `createMatch`. -/
structure CreatedMatch where
  player1 : Player
  player2 : Player
  timestamp : ℤ
  deriving DecidableEq, Repr

/-- Events emitted by the match queue. -/
inductive QueueEvent where
  | matchExpired (req : MatchRequest)
  | matchCreated (m : CreatedMatch)
  deriving DecidableEq, Repr

/-- The match queue's mutable state: the pending-request map, the level
brackets' member sets, per-player recent-match history, and the emitted
events. -/
structure QueueState where
  matchQueue : List (PlayerId × MatchRequest)
  levelBrackets : List (PlayerId × List PlayerId)
  matchHistory : List (PlayerId × List MatchRecord)
  events : List QueueEvent
  deriving DecidableEq, Repr

/-- `recordMatch`: push the record onto the player's history, then keep
only the last 50 entries. -/
def recordMatch (hist : List (PlayerId × List MatchRecord)) (pid : PlayerId)
    (rec : MatchRecord) : List (PlayerId × List MatchRecord) :=
  setAssoc hist pid (capHistory 50 ((getAssoc hist pid).getD [] ++ [rec]))

/-- `createMatch`: record the pairing in both players' histories and emit
`matchCreated`. It does not touch the request queue. -/
def createMatch (st : QueueState) (req : MatchRequest) (opponent : Player)
    (now : ℤ) : QueueState :=
  let h1 := recordMatch st.matchHistory req.player.globalId
    ⟨opponent.globalId, now, "pending"⟩
  let h2 := recordMatch h1 opponent.globalId
    ⟨req.player.globalId, now, "pending"⟩
  { st with matchHistory := h2
            events := st.events ++ [.matchCreated ⟨req.player, opponent, now⟩] }

/-- `removePlayerFromBracket`: delete the player from every bracket's
member set. -/
def removePlayerFromBracket (brackets : List (PlayerId × List PlayerId))
    (pid : PlayerId) : List (PlayerId × List PlayerId) :=
  brackets.map (fun e => (e.1, e.2.filter (fun q => q ≠ pid)))

/-- One iteration of the `processMatchmaking` loop for the queue entry
`(pid, req)`. `cfgMaxWaitTime` is the globally configured
`gameplay.matchmaking.maxMatchmakingTime` the loop reads (not the
request's own `criteria.maxWaitTime`). `find` stands for `findMatch`,
whose candidate scoring involves `Math.random()` jitter and external
player-state lookups and is therefore passed in as an oracle. -/
def processEntry (cfgMaxWaitTime now : ℤ)
    (find : QueueState → MatchRequest → Option Player)
    (st : QueueState) (pid : PlayerId) (req : MatchRequest) : QueueState :=
  if now - req.timestamp > cfgMaxWaitTime then
    { st with matchQueue := eraseAssoc st.matchQueue pid
              levelBrackets := removePlayerFromBracket st.levelBrackets pid
              events := st.events ++ [.matchExpired req] }
  else
    match find st req with
    | some opponent =>
      let st1 := createMatch st req opponent now
      { st1 with matchQueue := eraseAssoc st1.matchQueue pid
                 levelBrackets := removePlayerFromBracket st1.levelBrackets pid }
    | none => st

/-- `processMatchmaking`: fold `processEntry` over the queue entries in
insertion (submission) order. -/
def processMatchmaking (cfgMaxWaitTime now : ℤ)
    (find : QueueState → MatchRequest → Option Player)
    (st : QueueState) : QueueState :=
  st.matchQueue.foldl (fun s e => processEntry cfgMaxWaitTime now find s e.1 e.2) st

/-- A `rankings` entry (the fields `updatePlayerRank` touches). -/
structure RankData where
  rank : ℤ
  wins : ℕ
  losses : ℕ
  deriving DecidableEq, Repr

/-- The entry created for a player on first update: rank 1000. -/
def defaultRankData : RankData := ⟨1000, 0, 0⟩

/-- `getPlayerRank`: stored rank, defaulting to 1000 for new players. -/
def getPlayerRank (rankings : List (PlayerId × RankData)) (pid : PlayerId) : ℤ :=
  ((getAssoc rankings pid).map (·.rank)).getD 1000

/-- `updatePlayerRank`: create the entry if missing (rank 1000), then
`rank = max(0, rank + change)` followed by `rank = round(rank * decay)` —
the decay multiplication happens exactly once per update. -/
def updatePlayerRank (rankings : List (PlayerId × RankData)) (pid : PlayerId)
    (change : ℤ) (decay : ℚ) : List (PlayerId × RankData) :=
  let ranking := (getAssoc rankings pid).getD defaultRankData
  setAssoc rankings pid
    { ranking with rank := jsRound ((max 0 (ranking.rank + change) : ℤ) * decay) }

/-- `expectedWinner = 1 / (1 + powTerm)` where `powTerm` stands for
`Math.pow(10, (loserRank - winnerRank) / 400)`. The power term is
transcendental for unequal ranks and is passed in explicitly; for equal
ranks it is exactly `10^0 = 1`. -/
def expectedScore (powTerm : ℚ) : ℚ := 1 / (1 + powTerm)

/-- `winnerChange = Math.round(32 * (1 - expectedWinner))`. -/
def winnerChange (powTerm : ℚ) : ℤ := jsRound (32 * (1 - expectedScore powTerm))

/-- `loserChange = Math.round(32 * (0 - expectedLoser))` with
`expectedLoser = 1 - expectedWinner`. -/
def loserChange (powTerm : ℚ) : ℤ :=
  jsRound (32 * (0 - (1 - expectedScore powTerm)))

/-- `updateRankings`: apply the winner's and then the loser's delta; the
stored ranks feed only the power term, which is the `powTerm` argument. -/
def updateRankings (rankings : List (PlayerId × RankData))
    (winnerId loserId : PlayerId) (powTerm decay : ℚ) :
    List (PlayerId × RankData) :=
  updatePlayerRank (updatePlayerRank rankings winnerId (winnerChange powTerm) decay)
    loserId (loserChange powTerm) decay

/-! ## Theorems -/

lemma makeRoundMatches_length (r : ℕ) (ps : List PlayerId) :
    (makeRoundMatches r ps).length = (ps.length + 1) / 2 := by
  induction ps using makeRoundMatches.induct r with
  | case1 => simp [makeRoundMatches]
  | case2 p => simp [makeRoundMatches]
  | case3 p q rest ih =>
    simp only [makeRoundMatches, List.length_cons, ih]
    omega

lemma makeRoundMatches_bye_count (r : ℕ) (ps : List PlayerId) :
    (makeRoundMatches r ps).countP (fun m => m.status = .bye)
      = if ps.length % 2 = 1 then 1 else 0 := by
  induction ps using makeRoundMatches.induct r with
  | case1 => simp [makeRoundMatches]
  | case2 p => simp [makeRoundMatches, List.countP_cons, List.countP_nil]
  | case3 p q rest ih =>
    have hmod : (rest.length + 1 + 1) % 2 = rest.length % 2 := by omega
    simp [makeRoundMatches, List.countP_cons, ih, hmod]

lemma makeRoundMatches_bye_shape (r : ℕ) (ps : List PlayerId) :
    ∀ m ∈ makeRoundMatches r ps, m.status = .bye →
      m.winner = some m.player1 ∧ m.player2 = none := by
  induction ps using makeRoundMatches.induct r with
  | case1 => simp [makeRoundMatches]
  | case2 p => simp [makeRoundMatches]
  | case3 p q rest ih =>
    intro m hm hbye
    simp only [makeRoundMatches, List.mem_cons] at hm
    rcases hm with rfl | hm
    · simp at hbye
    · exact ih m hm hbye

lemma bye_not_in_matchesToBattle (round : List TMatch) (m : TMatch)
    (hbye : m.status = .bye) : m ∉ matchesToBattle round := by
  intro hmem
  simp only [matchesToBattle, List.mem_filter, decide_eq_true_eq] at hmem
  rw [hbye] at hmem
  exact absurd hmem.2 (by simp)

/-- C4: for a roster of N participants, round 0 of the bracket contains
exactly `ceil(N/2)` matches, with exactly one bye match iff N is odd; a
bye match's sole occupant is its immediate winner with status `bye`, and
`startNextRound` creates no battle for it (bye matches are excluded from
the pending-match filter handed to the battle system). -/
theorem createBracket_round0_spec (ps : List PlayerId) :
    ((createBracket ps).rounds.getD 0 []).length = (ps.length + 1) / 2 ∧
    ((createBracket ps).rounds.getD 0 []).countP (fun m => m.status = .bye)
      = (if ps.length % 2 = 1 then 1 else 0) ∧
    ∀ m ∈ (createBracket ps).rounds.getD 0 [], m.status = .bye →
      m.winner = some m.player1 ∧ m.player2 = none ∧
        m ∉ matchesToBattle ((createBracket ps).rounds.getD 0 []) := by
  refine ⟨?_, ?_, ?_⟩
  · simpa [createBracket] using makeRoundMatches_length 0 ps
  · simpa [createBracket] using makeRoundMatches_bye_count 0 ps
  · intro m hm hbye
    simp only [createBracket, List.getD, List.getElem?_cons_zero, Option.getD_some] at hm ⊢
    obtain ⟨h1, h2⟩ := makeRoundMatches_bye_shape 0 ps m hm hbye
    exact ⟨h1, h2, bye_not_in_matchesToBattle _ m hbye⟩

/-- Witness for C4 at the concrete roster `["a", "b", "c"]`: two round-0
matches, and the bye match for `"c"` has itself as winner, no opponent,
and is not handed to the battle system. -/
theorem createBracket_round0_spec_okwitness :
    ((createBracket ["a", "b", "c"]).rounds.getD 0 []).length = 2 ∧
    ((⟨0, "c", none, some "c", .bye⟩ : TMatch).winner = some "c" ∧
      (⟨0, "c", none, some "c", .bye⟩ : TMatch) ∉
        matchesToBattle ((createBracket ["a", "b", "c"]).rounds.getD 0 [])) := by
  have h := createBracket_round0_spec ["a", "b", "c"]
  refine ⟨h.1, ?_, (h.2.2 ⟨0, "c", none, some "c", .bye⟩ (by decide) (by decide)).2.2⟩
  exact (h.2.2 ⟨0, "c", none, some "c", .bye⟩ (by decide) (by decide)).1

lemma roundWinners_length_eq (ms : List TMatch) (h : ∀ m ∈ ms, m.winner.isSome) :
    (roundWinners ms).length = ms.length := by
  induction ms with
  | nil => rfl
  | cons m rest ih =>
    obtain ⟨w, hw⟩ := Option.isSome_iff_exists.mp (h m (by simp))
    have hrest := ih (fun x hx => h x (by simp [hx]))
    simp [roundWinners, List.filterMap_cons, hw] at hrest ⊢
    exact hrest

/-- C5: the tournament reaches `completed` (via `completeRound` calling
`completeTournament`) exactly when the current round — the bracket's last
— collects a single winner; since every match of a finished round has a
recorded winner, that round consists of one match and the champion is its
winner. -/
theorem completeRound_single_champion (t : Tournament) (b : Bracket)
    (hcur : b.currentRound + 1 = b.rounds.length)
    (hw : ∀ m ∈ b.rounds.getD b.currentRound [], m.winner.isSome)
    (ht : t.status ≠ .completed)
    (hc : (completeRound t b).1.status = .completed) :
    ∃ m, (completeRound t b).2.rounds.getLast? = some [m] ∧
      (completeRound t b).1.winner = m.winner ∧ m.winner.isSome := by
  by_cases hlen : (roundWinners (b.rounds.getD b.currentRound [])).length = 1
  · have hclen : (b.rounds.getD b.currentRound []).length = 1 := by
      rw [← roundWinners_length_eq _ hw]; exact hlen
    obtain ⟨m, hm⟩ := List.length_eq_one.mp hclen
    obtain ⟨w, hwm⟩ := Option.isSome_iff_exists.mp (hw m (by rw [hm]; simp))
    have hlt : b.currentRound < b.rounds.length := by omega
    have hlast : b.rounds.getLast? = some (b.rounds.getD b.currentRound []) := by
      rw [List.getLast?_eq_getElem?, List.getD_eq_getElem?_getD]
      have hidx : b.rounds.length - 1 = b.currentRound := by omega
      rw [hidx, List.getElem?_eq_getElem hlt]
      rfl
    have hcr : completeRound t b =
        ({ t with status := .completed,
                  winner := (roundWinners (b.rounds.getD b.currentRound [])).head? }, b) := by
      simp only [completeRound]
      rw [if_pos hlen]
    refine ⟨m, ?_, ?_, by simp [hwm]⟩
    · rw [hcr, hlast, hm]
    · rw [hcr, hm]
      simp [roundWinners, List.filterMap_cons, hwm]
  · have hcr : (completeRound t b).1 = t := by
      simp only [completeRound]
      rw [if_neg hlen]
    rw [hcr] at hc
    exact absurd hc ht

/-- Witness for C5: a one-round, one-match bracket whose match `"a"` vs
`"b"` was won by `"a"`; completing the round completes the tournament with
champion `"a"`. -/
theorem completeRound_single_champion_okwitness :
    ∃ m, (completeRound ⟨.active, none, ["a", "b"], 100⟩
        ⟨[[⟨0, "a", some "b", some "a", .completed⟩]], 0⟩).2.rounds.getLast? = some [m] ∧
      (completeRound ⟨.active, none, ["a", "b"], 100⟩
        ⟨[[⟨0, "a", some "b", some "a", .completed⟩]], 0⟩).1.winner = m.winner ∧
      m.winner.isSome :=
  completeRound_single_champion _ _ (by decide) (by decide) (by decide) (by decide)

lemma payBucket_mem (standings : List PlayerId) (totalPool : ℤ) (percentage : ℚ)
    (places : ℕ) : ∀ (position : ℕ),
    ∀ p ∈ payBucket standings totalPool percentage position places,
      position ≤ p.position ∧ p.position < position + places ∧
      p.percentage = percentage ∧ p.gold = ⌊(totalPool : ℚ) * percentage⌋ ∧
      p.position ≤ standings.length ∧
      standings[p.position - 1]? = some p.playerId := by
  induction places with
  | zero => intro position p hp; simp [payBucket] at hp
  | succ n ih =>
    intro position p hp
    simp only [payBucket, List.mem_append] at hp
    rcases hp with hp | hp
    · split at hp
      case isTrue h =>
        simp only [List.mem_singleton] at hp
        subst hp
        refine ⟨le_refl _, ?_, rfl, rfl, ?_, ?_⟩
        · show position < position + (n + 1)
          omega
        · show position ≤ standings.length
          omega
        · show standings[position - 1]? = some (standings.get ⟨position - 1, h⟩)
          rw [List.getElem?_eq_getElem h, List.get_eq_getElem]
      case isFalse h => simp at hp
    · obtain ⟨h1, h2, h3, h4, h5, h6⟩ := ih (position + 1) p hp
      exact ⟨by omega, by omega, h3, h4, h5, h6⟩

lemma payBucket_pairwise (standings : List PlayerId) (totalPool : ℤ)
    (percentage : ℚ) (places : ℕ) : ∀ (position : ℕ),
    List.Pairwise (fun a b => a.position < b.position)
      (payBucket standings totalPool percentage position places) := by
  induction places with
  | zero => intro position; simp [payBucket]
  | succ n ih =>
    intro position
    simp only [payBucket]
    split
    · rw [List.singleton_append, List.pairwise_cons]
      refine ⟨fun b hb => ?_, ih (position + 1)⟩
      have hlb := (payBucket_mem standings totalPool percentage n (position + 1) b hb).1
      show position < b.position
      omega
    · simpa using ih (position + 1)

lemma calculatePrizes_go_mem (standings : List PlayerId) (totalPool : ℤ)
    (pool : List (ℚ × ℕ)) : ∀ (position : ℕ),
    ∀ p ∈ calculatePrizes.go standings totalPool pool position,
      position ≤ p.position ∧ p.position ≤ standings.length ∧
      standings[p.position - 1]? = some p.playerId ∧
      p.gold = ⌊(totalPool : ℚ) * p.percentage⌋ ∧
      p.percentage ∈ pool.map Prod.fst := by
  induction pool with
  | nil => intro position p hp; simp [calculatePrizes.go] at hp
  | cons entry rest ih =>
    intro position p hp
    simp only [calculatePrizes.go, List.mem_append] at hp
    rcases hp with hp | hp
    · obtain ⟨h1, h2, h3, h4, h5, h6⟩ :=
        payBucket_mem standings totalPool entry.1 entry.2 position p hp
      exact ⟨h1, h5, h6, by rw [h4, h3], by simp [h3]⟩
    · obtain ⟨h1, h2, h3, h4, h5⟩ := ih (position + entry.2) p hp
      exact ⟨by omega, h2, h3, h4, by simp [h5]⟩

lemma calculatePrizes_go_pairwise (standings : List PlayerId) (totalPool : ℤ)
    (pool : List (ℚ × ℕ)) : ∀ (position : ℕ),
    List.Pairwise (fun a b => a.position < b.position)
      (calculatePrizes.go standings totalPool pool position) := by
  induction pool with
  | nil => intro position; simp [calculatePrizes.go]
  | cons entry rest ih =>
    intro position
    simp only [calculatePrizes.go]
    rw [List.pairwise_append]
    refine ⟨payBucket_pairwise standings totalPool entry.1 entry.2 position,
      ih (position + entry.2), fun a ha b hb => ?_⟩
    have hub := (payBucket_mem standings totalPool entry.1 entry.2 position a ha).2.1
    have hlb := (calculatePrizes_go_mem standings totalPool rest (position + entry.2) b hb).1
    omega

lemma scenarioC_standings_eq :
    getTournamentStandings (some "p1")
      [⟨2, "p1", some "p2", some "p1", .completed⟩] = ["p1"] := by
  decide

set_option maxRecDepth 4000 in
set_option maxHeartbeats 1000000 in
lemma scenarioC_prizes_eq :
    calculatePrizes [(1/2, 1), (3/10, 1), (1/5, 1)]
      (getTournamentStandings (some "p1") [⟨2, "p1", some "p2", some "p1", .completed⟩])
      (8 * 100) = [⟨"p1", 1, 400, 1/2⟩] := by
  rw [scenarioC_standings_eq]
  norm_num [calculatePrizes, calculatePrizes.go, payBucket]

/-- C1 (amended): every awarded prize pays `floor(totalPool · fraction)`
for its bucket's fraction, only places within the standings are awarded,
and the walk assigns strictly ascending places; in the Scenario C instance
(prize pool `{0.5: 1, 0.3: 1, 0.2: 1}`, 8 participants, entry fee 100,
so `totalPool = 800`) the standings contain only the champion, who
receives `floor(800 · 0.5) = 400` gold — positions 2 and 3 are beyond
the standings and receive no payout. -/
theorem calculatePrizes_spec (prizePool : List (ℚ × ℕ)) (standings : List PlayerId)
    (totalPool : ℤ) :
    (∀ p ∈ calculatePrizes prizePool standings totalPool,
        1 ≤ p.position ∧ p.position ≤ standings.length ∧
        standings[p.position - 1]? = some p.playerId ∧
        p.gold = ⌊(totalPool : ℚ) * p.percentage⌋ ∧
        p.percentage ∈ prizePool.map Prod.fst) ∧
    List.Pairwise (fun a b => a.position < b.position)
      (calculatePrizes prizePool standings totalPool) ∧
    calculatePrizes [(1/2, 1), (3/10, 1), (1/5, 1)]
      (getTournamentStandings (some "p1") [⟨2, "p1", some "p2", some "p1", .completed⟩])
      (8 * 100) = [⟨"p1", 1, 400, 1/2⟩] := by
  refine ⟨fun p hp => ?_, calculatePrizes_go_pairwise standings totalPool prizePool 1,
    scenarioC_prizes_eq⟩
  obtain ⟨h1, h2, h3, h4, h5⟩ :=
    calculatePrizes_go_mem standings totalPool prizePool 1 p hp
  exact ⟨h1, h2, h3, h4, h5⟩

/-- Witness for C1's amended theorem at a concrete prize pool and
standings: the sole prize entry of the scenario satisfies the awarded-place
properties. -/
theorem calculatePrizes_spec_okwitness :
    (1 ≤ (Prize.mk "p1" 1 400 (1/2)).position ∧
      (Prize.mk "p1" 1 400 (1/2)).gold =
        ⌊((8 * 100 : ℤ) : ℚ) * (Prize.mk "p1" 1 400 (1/2)).percentage⌋) := by
  have h := (calculatePrizes_spec [(1/2, 1), (3/10, 1), (1/5, 1)]
    (getTournamentStandings (some "p1") [⟨2, "p1", some "p2", some "p1", .completed⟩])
    (8 * 100)).1 (Prize.mk "p1" 1 400 (1/2)) (by rw [scenarioC_prizes_eq]; simp)
  exact ⟨h.1, h.2.2.2.1⟩

/-- C1 counterexample: in the Scenario C instance the computed prize map
awards only the champion (400 gold); no participant receives the claimed
runner-up 240 or third-place 160. -/
theorem calculatePrizes_no_runner_up :
    calculatePrizes [(1/2, 1), (3/10, 1), (1/5, 1)]
      (getTournamentStandings (some "p1") [⟨2, "p1", some "p2", some "p1", .completed⟩])
      (8 * 100) = [⟨"p1", 1, 400, 1/2⟩] ∧
    ∀ p ∈ calculatePrizes [(1/2, 1), (3/10, 1), (1/5, 1)]
      (getTournamentStandings (some "p1") [⟨2, "p1", some "p2", some "p1", .completed⟩])
      (8 * 100), p.gold ≠ 240 ∧ p.gold ≠ 160 := by
  refine ⟨scenarioC_prizes_eq, ?_⟩
  rw [scenarioC_prizes_eq]
  intro p hp
  simp only [List.mem_singleton] at hp
  subst hp
  exact ⟨by norm_num, by norm_num⟩

lemma getAssoc_setAssoc_self {β : Type} (k : PlayerId) (v : β) :
    ∀ (m : List (PlayerId × β)), getAssoc (setAssoc m k v) k = some v
  | [] => by simp [setAssoc, getAssoc]
  | (a, b) :: rest => by
    by_cases h : a = k
    · simp [setAssoc, h, getAssoc]
    · simp [setAssoc, h, getAssoc, getAssoc_setAssoc_self k v rest]

lemma getAssoc_setAssoc_ne {β : Type} (k q : PlayerId) (v : β) (hne : q ≠ k) :
    ∀ (m : List (PlayerId × β)), getAssoc (setAssoc m k v) q = getAssoc m q
  | [] => by simp [setAssoc, getAssoc, Ne.symm hne]
  | (a, b) :: rest => by
    by_cases h : a = k
    · subst h
      simp [setAssoc, getAssoc, Ne.symm hne]
    · simp [setAssoc, h, getAssoc, getAssoc_setAssoc_ne k q v hne rest]

lemma mem_setAssoc {β : Type} (k : PlayerId) (v : β) :
    ∀ (m : List (PlayerId × β)), ∀ e ∈ setAssoc m k v, e = (k, v) ∨ e ∈ m
  | [] => by simp [setAssoc]
  | (a, b) :: rest => by
    by_cases h : a = k
    · intro e he
      simp only [setAssoc, if_pos h, List.mem_cons] at he
      rcases he with he | he
      · exact Or.inl he
      · exact Or.inr (List.mem_cons_of_mem _ he)
    · intro e he
      simp only [setAssoc, if_neg h, List.mem_cons] at he
      rcases he with he | he
      · exact Or.inr (by simp [he])
      · rcases mem_setAssoc k v rest e he with h1 | h1
        · exact Or.inl h1
        · exact Or.inr (List.mem_cons_of_mem _ h1)

lemma getAssoc_mem {β : Type} (k : PlayerId) (v : β) :
    ∀ (m : List (PlayerId × β)), getAssoc m k = some v → (k, v) ∈ m
  | [], h => by simp [getAssoc] at h
  | (a, b) :: rest, h => by
    by_cases hq : a = k
    · subst hq
      simp [getAssoc] at h
      simp [h]
    · simp only [getAssoc, if_neg hq] at h
      simp [getAssoc_mem k v rest h]

lemma jsRound_nonneg (q : ℚ) (h : 0 ≤ q) : 0 ≤ jsRound q := by
  unfold jsRound
  have h0 : (0 : ℤ) = ⌊(0 : ℚ)⌋ := by norm_num
  rw [h0]
  exact Int.floor_le_floor (by linarith)

lemma jsRound_nonpos (q : ℚ) (h : q ≤ 0) : jsRound q ≤ 0 := by
  unfold jsRound
  have hb : ⌊q + 1/2⌋ ≤ ⌊(1/2 : ℚ)⌋ := Int.floor_le_floor (by linarith)
  have h12 : ⌊(1/2 : ℚ)⌋ = 0 := by norm_num
  omega

lemma expectedScore_mem_unit (p : ℚ) (hp : 0 ≤ p) :
    0 < expectedScore p ∧ expectedScore p ≤ 1 := by
  unfold expectedScore
  constructor
  · positivity
  · rw [div_le_one (by linarith)]
    linarith

lemma winnerChange_nonneg (p : ℚ) (hp : 0 ≤ p) : 0 ≤ winnerChange p := by
  unfold winnerChange
  have h1 := (expectedScore_mem_unit p hp).2
  exact jsRound_nonneg _ (by linarith)

lemma loserChange_nonpos (p : ℚ) (hp : 0 ≤ p) : loserChange p ≤ 0 := by
  unfold loserChange
  have h1 := (expectedScore_mem_unit p hp).2
  exact jsRound_nonpos _ (by linarith)

lemma getPlayerRank_updatePlayerRank_self (rs : List (PlayerId × RankData))
    (pid : PlayerId) (change : ℤ) (decay : ℚ) :
    getPlayerRank (updatePlayerRank rs pid change decay) pid
      = jsRound ((max 0 (getPlayerRank rs pid + change) : ℤ) * decay) := by
  unfold updatePlayerRank getPlayerRank
  rw [getAssoc_setAssoc_self]
  cases h : getAssoc rs pid <;> simp [h, defaultRankData]

lemma getPlayerRank_updatePlayerRank_ne (rs : List (PlayerId × RankData))
    (pid q : PlayerId) (change : ℤ) (decay : ℚ) (h : q ≠ pid) :
    getPlayerRank (updatePlayerRank rs pid change decay) q = getPlayerRank rs q := by
  unfold updatePlayerRank getPlayerRank
  rw [getAssoc_setAssoc_ne _ _ _ h]

lemma getPlayerRank_nonneg (rs : List (PlayerId × RankData))
    (hnn : ∀ e ∈ rs, 0 ≤ e.2.rank) (p : PlayerId) : 0 ≤ getPlayerRank rs p := by
  unfold getPlayerRank
  cases h : getAssoc rs p
  · simp
  case some r =>
    have := hnn (p, r) (getAssoc_mem p r rs h)
    simpa using this

lemma updatePlayerRank_all_nonneg (rs : List (PlayerId × RankData))
    (pid : PlayerId) (change : ℤ) (decay : ℚ) (hd : 0 ≤ decay)
    (hnn : ∀ e ∈ rs, 0 ≤ e.2.rank) :
    ∀ e ∈ updatePlayerRank rs pid change decay, 0 ≤ e.2.rank := by
  intro e he
  rcases mem_setAssoc _ _ _ e he with heq | hm
  · rw [heq]
    refine jsRound_nonneg _ (mul_nonneg ?_ hd)
    exact_mod_cast le_max_left 0 _
  · exact hnn e hm

/-- C6: at equal ratings 1000 vs 1000 the expected winner score is exactly
1/2 (the power term is `10^((1000-1000)/400) = 10^0 = 1`), the winner's
delta is `round(32 · (1 - 1/2)) = 16` and the loser's
`round(32 · (0 - 1/2)) = -16`; applying `updateRankings` stores
`round(1016 · 0.95) = 965` for the winner and `round(984 · 0.95) = 935`
for the loser — the 0.95 decay multiplication is applied exactly once per
update on top of the delta. -/
theorem updateRankings_equal_ratings :
    ((10 : ℚ) ^ (((1000 : ℤ) - 1000) / 400) = 1) ∧
    expectedScore 1 = 1/2 ∧
    winnerChange 1 = 16 ∧
    loserChange 1 = -16 ∧
    getPlayerRank (updateRankings [("w", ⟨1000, 0, 0⟩), ("l", ⟨1000, 0, 0⟩)]
      "w" "l" 1 (95/100)) "w" = 965 ∧
    getPlayerRank (updateRankings [("w", ⟨1000, 0, 0⟩), ("l", ⟨1000, 0, 0⟩)]
      "w" "l" 1 (95/100)) "l" = 935 ∧
    (965 : ℤ) = jsRound ((1000 + 16) * (95/100)) ∧
    (935 : ℤ) = jsRound ((1000 - 16) * (95/100)) := by
  have hw : getPlayerRank [("w", (⟨1000, 0, 0⟩ : RankData)), ("l", ⟨1000, 0, 0⟩)]
      "w" = 1000 := by
    simp [getPlayerRank, getAssoc]
  have hl : getPlayerRank [("w", (⟨1000, 0, 0⟩ : RankData)), ("l", ⟨1000, 0, 0⟩)]
      "l" = 1000 := by
    norm_num [getPlayerRank, getAssoc]
  have hwc : winnerChange 1 = 16 := by norm_num [winnerChange, expectedScore, jsRound]
  have hlc : loserChange 1 = -16 := by norm_num [loserChange, expectedScore, jsRound]
  refine ⟨by norm_num, by norm_num [expectedScore], hwc, hlc, ?_, ?_,
    by norm_num [jsRound], by norm_num [jsRound]⟩
  · unfold updateRankings
    rw [getPlayerRank_updatePlayerRank_ne _ _ _ _ _ (by decide),
      getPlayerRank_updatePlayerRank_self, hw, hwc]
    norm_num [jsRound]
  · unfold updateRankings
    rw [getPlayerRank_updatePlayerRank_self,
      getPlayerRank_updatePlayerRank_ne _ _ _ _ _ (by decide), hl, hlc]
    norm_num [jsRound]

/-- C7: for any single ranked update (with a nonnegative power term and
decay factor, and all stored ratings nonnegative), the winner's pre-decay
rating does not decrease and the loser's pre-decay rating does not
increase; the stored post-update ratings apply the decay multiplication
uniformly to both pre-decay values; every stored rating remains `≥ 0`;
and a player with no entry reads rating 1000. -/
theorem updateRankings_monotone (rankings : List (PlayerId × RankData))
    (w l : PlayerId) (powTerm decay : ℚ)
    (hwl : w ≠ l) (hpow : 0 ≤ powTerm) (hdecay : 0 ≤ decay)
    (hnn : ∀ e ∈ rankings, 0 ≤ e.2.rank) :
    getPlayerRank rankings w ≤ max 0 (getPlayerRank rankings w + winnerChange powTerm) ∧
    max 0 (getPlayerRank rankings l + loserChange powTerm) ≤ getPlayerRank rankings l ∧
    getPlayerRank (updateRankings rankings w l powTerm decay) w
      = jsRound ((max 0 (getPlayerRank rankings w + winnerChange powTerm) : ℤ) * decay) ∧
    getPlayerRank (updateRankings rankings w l powTerm decay) l
      = jsRound ((max 0 (getPlayerRank rankings l + loserChange powTerm) : ℤ) * decay) ∧
    (∀ e ∈ updateRankings rankings w l powTerm decay, 0 ≤ e.2.rank) ∧
    (∀ p, getAssoc rankings p = none → getPlayerRank rankings p = 1000) := by
  have hwc := winnerChange_nonneg powTerm hpow
  have hlc := loserChange_nonpos powTerm hpow
  have hlr := getPlayerRank_nonneg rankings hnn l
  refine ⟨?_, ?_, ?_, ?_, ?_, ?_⟩
  · exact le_trans (by omega) (le_max_right 0 _)
  · exact max_le hlr (by omega)
  · unfold updateRankings
    rw [getPlayerRank_updatePlayerRank_ne _ _ _ _ _ hwl,
      getPlayerRank_updatePlayerRank_self]
  · unfold updateRankings
    rw [getPlayerRank_updatePlayerRank_self,
      getPlayerRank_updatePlayerRank_ne _ _ _ _ _ (Ne.symm hwl)]
  · unfold updateRankings
    exact updatePlayerRank_all_nonneg _ _ _ _ hdecay
      (updatePlayerRank_all_nonneg _ _ _ _ hdecay hnn)
  · intro p hp
    unfold getPlayerRank
    rw [hp]
    rfl

/-- Witness for C7 at empty rankings, power term 1 (equal ratings) and the
default decay 0.95. -/
theorem updateRankings_monotone_okwitness :
    getPlayerRank [] "a" ≤ max 0 (getPlayerRank [] "a" + winnerChange 1) ∧
    max 0 (getPlayerRank [] "b" + loserChange 1) ≤ getPlayerRank [] "b" ∧
    getPlayerRank (updateRankings [] "a" "b" 1 (95/100)) "a"
      = jsRound ((max 0 (getPlayerRank [] "a" + winnerChange 1) : ℤ) * (95/100)) ∧
    getPlayerRank (updateRankings [] "a" "b" 1 (95/100)) "b"
      = jsRound ((max 0 (getPlayerRank [] "b" + loserChange 1) : ℤ) * (95/100)) ∧
    (∀ e ∈ updateRankings [] "a" "b" 1 (95/100), 0 ≤ e.2.rank) ∧
    (∀ p, getAssoc ([] : List (PlayerId × RankData)) p = none →
      getPlayerRank [] p = 1000) :=
  updateRankings_monotone [] "a" "b" 1 (95/100) (by simp) (by norm_num)
    (by norm_num) (by simp)

lemma getAssoc_eraseAssoc_self {β : Type} (k : PlayerId) :
    ∀ (m : List (PlayerId × β)), getAssoc (eraseAssoc m k) k = none
  | [] => rfl
  | (a, b) :: rest => by
    have ih := getAssoc_eraseAssoc_self k rest
    by_cases h : a = k
    · subst h
      have he : eraseAssoc ((a, b) :: rest) a = eraseAssoc rest a := by
        simp [eraseAssoc, List.filter_cons]
      rw [he, ih]
    · have he : eraseAssoc ((a, b) :: rest) k = (a, b) :: eraseAssoc rest k := by
        simp [eraseAssoc, List.filter_cons, h]
      rw [he]
      simp [getAssoc, h, ih]

lemma getAssoc_eraseAssoc_ne {β : Type} (k q : PlayerId) (hne : q ≠ k) :
    ∀ (m : List (PlayerId × β)), getAssoc (eraseAssoc m k) q = getAssoc m q
  | [] => rfl
  | (a, b) :: rest => by
    have ih := getAssoc_eraseAssoc_ne k q hne rest
    by_cases h : a = k
    · subst h
      have he : eraseAssoc ((a, b) :: rest) a = eraseAssoc rest a := by
        simp [eraseAssoc, List.filter_cons]
      rw [he, ih]
      simp [getAssoc, Ne.symm hne]
    · have he : eraseAssoc ((a, b) :: rest) k = (a, b) :: eraseAssoc rest k := by
        simp [eraseAssoc, List.filter_cons, h]
      rw [he]
      simp [getAssoc, ih]

/-- C2 counterexample: a concrete PvP battle is completed by `endBattle`;
re-submitting a turn on its id fails with the `Battle not found` error of
`UnknownBattle` — there is no `BattleAlreadyResolved` failure — and the
state is returned unchanged. -/
theorem processTurn_after_completion_cx :
    processTurn (endBattle ⟨[("b1", ⟨"b1", .pvp, ["A", "B"], none,
        [("A", 10), ("B", 0)], .active, none, []⟩)], [], []⟩
        ⟨"b1", .pvp, ["A", "B"], none, [("A", 10), ("B", 0)], .active, none, []⟩).1
      "b1" "A" ⟨.attack, none⟩ false
      = ((endBattle ⟨[("b1", ⟨"b1", .pvp, ["A", "B"], none,
          [("A", 10), ("B", 0)], .active, none, []⟩)], [], []⟩
          ⟨"b1", .pvp, ["A", "B"], none, [("A", 10), ("B", 0)], .active, none, []⟩).1,
        .error "Battle not found") ∧
    "Battle not found" ≠ "BattleAlreadyResolved" := by
  constructor
  · rfl
  · decide

/-- C2 (amended): `endBattle` removes the completed battle from the active
set, and every turn submission on an id absent from the active set fails
with the `Battle not found` error, returning the state unchanged (no
battle, active-set or history mutation). -/
theorem processTurn_after_completion (sys : BattleSystem) (b : Battle)
    (a : PlayerId) (act : Action) (crit : Bool) :
    getAssoc (endBattle sys b).1.activeBattles b.id = none ∧
    (∀ sys2 bid, getAssoc sys2.activeBattles bid = none →
      processTurn sys2 bid a act crit = (sys2, .error "Battle not found")) := by
  constructor
  · exact getAssoc_eraseAssoc_self b.id sys.activeBattles
  · intro sys2 bid h
    unfold processTurn
    rw [h]

/-- Witness for C2's amended theorem on a concrete completed battle. -/
theorem processTurn_after_completion_okwitness :
    getAssoc (endBattle ⟨[("b9", ⟨"b9", .pvp, ["A", "B"], none,
        [("A", 10), ("B", 0)], .active, none, []⟩)], [], []⟩
        ⟨"b9", .pvp, ["A", "B"], none, [("A", 10), ("B", 0)], .active, none,
          []⟩).1.activeBattles "b9" = none ∧
    processTurn ⟨[], [], []⟩ "b9" "A" ⟨.attack, none⟩ false
      = (⟨[], [], []⟩, .error "Battle not found") := by
  have h := processTurn_after_completion
    ⟨[("b9", ⟨"b9", .pvp, ["A", "B"], none, [("A", 10), ("B", 0)], .active, none, []⟩)],
      [], []⟩
    ⟨"b9", .pvp, ["A", "B"], none, [("A", 10), ("B", 0)], .active, none, []⟩
    "A" ⟨.attack, none⟩ false
  exact ⟨h.1, h.2 ⟨[], [], []⟩ "b9" rfl⟩

lemma processPvETurn_attack (b : Battle) (t : Turn) (m : Monster)
    (hm : b.monster = some m) (hact : t.action.type = .attack) :
    ∃ d t2, calculateDamage (b.participants.headD "") m t.action false = .ok d ∧
      processPvETurn b t false =
        .ok ({ b with monster := some { m with hp := max 0 (m.hp - d) } }, t2) := by
  have hcd : calculateDamage (b.participants.headD "") m t.action false
      = .ok (max 1 (jsOrNum t.action.damage 50
          + getPlayerLevel (b.participants.headD "") * 2 - m.defense)) := rfl
  obtain ⟨t2, ht2⟩ : ∃ t2, processPvETurn b t false =
      .ok ({ b with monster := some { m with hp := max 0 (m.hp -
        max 1 (jsOrNum t.action.damage 50
          + getPlayerLevel (b.participants.headD "") * 2 - m.defense)) } }, t2) := by
    simp only [processPvETurn, hm, hact, hcd]
    exact ⟨_, rfl⟩
  exact ⟨_, t2, hcd, ht2⟩

lemma getAssoc_applyPvPDamage (dId : PlayerId) (dmg : ℤ) (q : PlayerId) (hp2 : ℤ) :
    ∀ (players : List (PlayerId × ℤ)),
      getAssoc (applyPvPDamage players dId dmg) q = some hp2 →
      0 ≤ hp2 ∨ getAssoc players q = some hp2 := by
  suffices hmap : ∀ (players : List (PlayerId × ℤ)),
      getAssoc (players.map (fun e =>
        if e.1 = dId then (e.1, max 0 (e.2 - dmg)) else e)) q = some hp2 →
      0 ≤ hp2 ∨ getAssoc players q = some hp2 by
    intro players h
    unfold applyPvPDamage at h
    split at h
    · exact hmap players h
    · exact Or.inr h
  intro players
  induction players with
  | nil => intro h; simp [getAssoc] at h
  | cons e rest ih =>
    obtain ⟨a, hp0⟩ := e
    intro h
    rw [List.map_cons] at h
    dsimp only at h
    by_cases hd : a = dId
    · rw [if_pos hd] at h
      by_cases hq : a = q
      · subst hq
        simp [getAssoc] at h
        left
        omega
      · simp only [getAssoc, if_neg hq] at h
        rcases ih h with h1 | h1
        · exact Or.inl h1
        · right
          simp [getAssoc, hq, h1]
    · rw [if_neg hd] at h
      by_cases hq : a = q
      · subst hq
        simp [getAssoc] at h ⊢
        exact Or.inr h
      · simp only [getAssoc, if_neg hq] at h ⊢
        rcases ih h with h1 | h1
        · exact Or.inl h1
        · exact Or.inr h1

lemma find?_eq_of_filter_singleton {α : Type} (p : α → Bool) (x : α) :
    ∀ (l : List α), l.filter p = [x] → l.find? p = some x
  | [], h => by simp at h
  | a :: rest, h => by
    by_cases hp : p a
    · rw [List.filter_cons_of_pos hp] at h
      injection h with h1 h2
      rw [List.find?_cons_of_pos rest hp, h1]
    · rw [List.filter_cons_of_neg hp] at h
      rw [List.find?_cons_of_neg rest hp]
      exact find?_eq_of_filter_singleton p x rest h

lemma endBattle_fields (sys : BattleSystem) (b : Battle) :
    (endBattle sys b).2.status = .completed ∧
    (endBattle sys b).2.players = b.players ∧
    (endBattle sys b).2.participants = b.participants ∧
    (endBattle sys b).2.monster = b.monster ∧
    (endBattle sys b).1.activeBattles = eraseAssoc sys.activeBattles b.id ∧
    (endBattle sys b).2.winner = (match b.type with
      | .pve => (match b.monster with
        | some m => if m.hp ≤ 0 then b.participants.head? else none
        | none => none)
      | .pvp => (b.players.find? (fun e => 0 < e.2)).map (·.1)) := by
  exact ⟨rfl, rfl, rfl, rfl, rfl, rfl⟩

lemma processTurn_eq_of_step (sys : BattleSystem) (bid : String) (b : Battle)
    (a : PlayerId) (act : Action) (crit : Bool) (b1 : Battle) (t2 : Turn)
    (hlk : getAssoc sys.activeBattles bid = some b)
    (hstep : (match b.type with
        | .pve => processPvETurn b ⟨a, act, 0, "miss", none, none⟩ crit
        | .pvp => .ok (processPvPTurn b ⟨a, act, 0, "miss", none, none⟩))
      = .ok (b1, t2)) :
    processTurn sys bid a act crit =
      (let b2 : Battle := { b1 with turns := b1.turns ++ [t2] }
       let sys1 : BattleSystem :=
         { sys with activeBattles := setAssoc sys.activeBattles bid b2 }
       if isBattleOver b2 then
         ({ (endBattle sys1 b2).1 with
             events := (endBattle sys1 b2).1.events
               ++ [.turnProcessed (endBattle sys1 b2).2 t2] },
          .ok (endBattle sys1 b2).2)
       else
         ({ sys1 with events := sys1.events ++ [.turnProcessed b2 t2] },
          .ok b2)) := by
  simp only [processTurn, hlk, hstep]

lemma processPvPTurn_fields (b : Battle) (t : Turn)
    (hact : t.action.type = .attack) :
    (processPvPTurn b t).1.type = b.type ∧
    (processPvPTurn b t).1.id = b.id ∧
    (processPvPTurn b t).1.status = b.status ∧
    ((processPvPTurn b t).1.players = b.players ∨
      ∃ dId dmg, (processPvPTurn b t).1.players
        = applyPvPDamage b.players dId dmg) := by
  unfold processPvPTurn
  simp only [hact]
  rcases hdef : b.participants.find? (fun i => i ≠ t.attacker) with _ | dId
  · simp only [if_pos rfl]
    exact ⟨rfl, rfl, rfl, Or.inl rfl⟩
  · simp only [if_pos rfl]
    exact ⟨rfl, rfl, rfl, Or.inr ⟨dId, _, rfl⟩⟩

/-- C9: after an attack turn on an active battle, a tracked combatant's
HP reaching 0 completes the battle with the surviving side as winner, and
every damage application floors the target's HP at 0. PvE (non-critical
turn): the monster's HP becomes `max 0 (hp - damage)`; the battle
completes exactly when that reaches 0, with the sole participant as
winner, and leaves the active set. PvP: every player HP is either
untouched or the floored damage result (hence `≥ 0`); if some player's HP
is `≤ 0` the battle completes, leaves the active set, and a unique
surviving player is recorded as winner; if all players survive the battle
stays active. -/
theorem processTurn_hp_termination (sys : BattleSystem) (bid : String)
    (b : Battle) (a : PlayerId) (act : Action) (m : Monster)
    (hlk : getAssoc sys.activeBattles bid = some b) (hid : b.id = bid)
    (hact : act.type = .attack) (hstat : b.status = .active) :
    (b.type = .pve → b.monster = some m →
      ∃ d b2, calculateDamage (b.participants.headD "") m act false = .ok d ∧
        (processTurn sys bid a act false).2 = .ok b2 ∧
        b2.monster = some { m with hp := max 0 (m.hp - d) } ∧
        (m.hp - d ≤ 0 → b2.status = .completed ∧
          b2.winner = b.participants.head? ∧
          getAssoc (processTurn sys bid a act false).1.activeBattles bid = none) ∧
        (0 < m.hp - d → b2.status = .active)) ∧
    (∀ crit, b.type = .pvp →
      ∃ b2, (processTurn sys bid a act crit).2 = .ok b2 ∧
        (∀ q hp2, getAssoc b2.players q = some hp2 →
          0 ≤ hp2 ∨ getAssoc b.players q = some hp2) ∧
        ((b2.players.any fun e => e.2 ≤ 0) = true →
          b2.status = .completed ∧
          getAssoc (processTurn sys bid a act crit).1.activeBattles bid = none ∧
          ∀ s, b2.players.filter (fun e => 0 < e.2) = [s] → b2.winner = some s.1) ∧
        ((b2.players.any fun e => e.2 ≤ 0) = false → b2.status = .active)) := by
  constructor
  · intro hpve hm
    obtain ⟨d, t2, hcd, hrun⟩ :=
      processPvETurn_attack b ⟨a, act, 0, "miss", none, none⟩ m hm hact
    have hstep : (match b.type with
        | .pve => processPvETurn b ⟨a, act, 0, "miss", none, none⟩ false
        | .pvp => .ok (processPvPTurn b ⟨a, act, 0, "miss", none, none⟩))
        = .ok ({ b with monster := some { m with hp := max 0 (m.hp - d) } }, t2) := by
      simp only [hpve, hrun]
    have hpt := processTurn_eq_of_step sys bid b a act false _ _ hlk hstep
    simp only at hpt
    by_cases hdead : m.hp - d ≤ 0
    · have hover : isBattleOver { b with
          monster := some { m with hp := max 0 (m.hp - d) },
          turns := b.turns ++ [t2] } = true := by
        simp only [isBattleOver, hpve, decide_eq_true_eq]
        omega
      rw [hover, if_pos rfl] at hpt
      refine ⟨d, _, hcd, by rw [hpt], ?_, ?_, ?_⟩
      · exact (endBattle_fields _ _).2.2.2.1
      · intro _
        refine ⟨(endBattle_fields _ _).1, ?_, ?_⟩
        · rw [(endBattle_fields _ _).2.2.2.2.2]
          simp only [hpve]
          rw [if_pos (show max 0 (m.hp - d) ≤ 0 by omega)]
        · rw [hpt]
          simp only
          rw [(endBattle_fields _ _).2.2.2.2.1]
          dsimp only
          rw [hid]
          exact getAssoc_eraseAssoc_self bid _
      · intro hpos
        omega
    · have hover : isBattleOver { b with
          monster := some { m with hp := max 0 (m.hp - d) },
          turns := b.turns ++ [t2] } = false := by
        simp only [isBattleOver, hpve]
        simp only [decide_eq_false_iff_not]
        omega
      rw [hover] at hpt
      rw [if_neg (by simp)] at hpt
      refine ⟨d, _, hcd, by rw [hpt], rfl, ?_, ?_⟩
      · intro hd2
        omega
      · intro _
        exact hstat
  · intro crit hpvp
    obtain ⟨htype1, hid1, hstatus1, hplayers1⟩ :=
      processPvPTurn_fields b ⟨a, act, 0, "miss", none, none⟩ hact
    have hstep : (match b.type with
        | .pve => processPvETurn b ⟨a, act, 0, "miss", none, none⟩ crit
        | .pvp => .ok (processPvPTurn b ⟨a, act, 0, "miss", none, none⟩))
        = .ok ((processPvPTurn b ⟨a, act, 0, "miss", none, none⟩).1,
               (processPvPTurn b ⟨a, act, 0, "miss", none, none⟩).2) := by
      rw [hpvp]
    have hpt := processTurn_eq_of_step sys bid b a act crit _ _ hlk hstep
    simp only at hpt
    set b1 := (processPvPTurn b ⟨a, act, 0, "miss", none, none⟩).1 with hb1def
    set t2 := (processPvPTurn b ⟨a, act, 0, "miss", none, none⟩).2 with ht2def
    have hfloor : ∀ q hp2,
        getAssoc ({ b1 with turns := b1.turns ++ [t2] } : Battle).players q
          = some hp2 → 0 ≤ hp2 ∨ getAssoc b.players q = some hp2 := by
      intro q hp2 hq
      rcases hplayers1 with he | ⟨dId, dmg, he⟩
      · right
        rw [show ({ b1 with turns := b1.turns ++ [t2] } : Battle).players
            = b1.players from rfl, he] at hq
        exact hq
      · rw [show ({ b1 with turns := b1.turns ++ [t2] } : Battle).players
            = b1.players from rfl, he] at hq
        exact getAssoc_applyPvPDamage dId dmg q hp2 b.players hq
    by_cases hany : (({ b1 with turns := b1.turns ++ [t2] } : Battle).players.any
        fun e => e.2 ≤ 0) = true
    · have hover : isBattleOver { b1 with turns := b1.turns ++ [t2] } = true := by
        simp only [isBattleOver]
        rw [show ({ b1 with turns := b1.turns ++ [t2] } : Battle).type
          = b1.type from rfl, htype1, hpvp]
        exact hany
      rw [hover, if_pos rfl] at hpt
      refine ⟨_, by rw [hpt], ?_, ?_, ?_⟩
      · intro q hp2 hq
        rw [(endBattle_fields _ _).2.1] at hq
        exact hfloor q hp2 hq
      · intro _
        refine ⟨(endBattle_fields _ _).1, ?_, ?_⟩
        · rw [hpt]
          simp only
          rw [(endBattle_fields _ _).2.2.2.2.1]
          dsimp only
          rw [hid1, hid]
          exact getAssoc_eraseAssoc_self bid _
        · intro s hs
          rw [(endBattle_fields _ _).2.2.2.2.2]
          have hT : ({ b1 with turns := b1.turns ++ [t2] } : Battle).type
              = BattleKind.pvp := by
            rw [show ({ b1 with turns := b1.turns ++ [t2] } : Battle).type
              = b1.type from rfl, htype1, hpvp]
          rw [hT]
          rw [(endBattle_fields _ _).2.1] at hs
          rw [find?_eq_of_filter_singleton _ s _ hs]
          rfl
      · intro hnone
        rw [(endBattle_fields _ _).2.1] at hnone
        rw [hnone] at hany
        exact absurd hany (by simp)
    · have hover : isBattleOver { b1 with turns := b1.turns ++ [t2] } = false := by
        simp only [isBattleOver]
        rw [show ({ b1 with turns := b1.turns ++ [t2] } : Battle).type
          = b1.type from rfl, htype1, hpvp]
        simpa using hany
      rw [hover] at hpt
      rw [if_neg (by simp)] at hpt
      refine ⟨_, by rw [hpt], hfloor, ?_, ?_⟩
      · intro hc
        exact absurd hc hany
      · intro _
        show ({ b1 with turns := b1.turns ++ [t2] } : Battle).status = .active
        rw [show ({ b1 with turns := b1.turns ++ [t2] } : Battle).status
          = b1.status from rfl, hstatus1, hstat]

/-- Witness for C9: a concrete PvE battle against a 10-HP monster; a
50-damage attack floors the monster at 0 HP and completes the battle with
the player as winner. -/
theorem processTurn_hp_termination_okwitness :
    ∃ d b2, calculateDamage "A" ⟨5, 10, 15, 5⟩ ⟨.attack, some 50⟩ false = .ok d ∧
      (processTurn ⟨[("b2", ⟨"b2", .pve, ["A"], some ⟨5, 10, 15, 5⟩, [], .active,
          none, []⟩)], [], []⟩ "b2" "A" ⟨.attack, some 50⟩ false).2 = .ok b2 ∧
      b2.monster = some ⟨5, max 0 (10 - d), 15, 5⟩ ∧
      (10 - d ≤ 0 → b2.status = .completed ∧ b2.winner = some "A" ∧
        getAssoc (processTurn ⟨[("b2", ⟨"b2", .pve, ["A"], some ⟨5, 10, 15, 5⟩,
          [], .active, none, []⟩)], [], []⟩
          "b2" "A" ⟨.attack, some 50⟩ false).1.activeBattles "b2" = none) ∧
      (0 < 10 - d → b2.status = .active) :=
  (processTurn_hp_termination
    ⟨[("b2", ⟨"b2", .pve, ["A"], some ⟨5, 10, 15, 5⟩, [], .active, none, []⟩)],
      [], []⟩
    "b2" ⟨"b2", .pve, ["A"], some ⟨5, 10, 15, 5⟩, [], .active, none, []⟩
    "A" ⟨.attack, some 50⟩ ⟨5, 10, 15, 5⟩ rfl rfl rfl rfl).1 rfl rfl

/-- C10 (code bug): in the critical branch `calculateDamage` executes
`turn.critical = true` with no `turn` in scope and raises a
`ReferenceError` instead of returning a number; the non-critical branch is
total. A concrete PvE attack turn with the critical draw propagates the
error out of `processTurn` and leaves the state unchanged. -/
theorem calculateDamage_critical_raises :
    (∀ pid m act, calculateDamage pid m act true
        = .error "ReferenceError: turn is not defined") ∧
    (∀ pid m act, ∃ dmg, calculateDamage pid m act false = .ok dmg) ∧
    processTurn ⟨[("b2", ⟨"b2", .pve, ["A"], some ⟨5, 10, 15, 5⟩, [], .active,
        none, []⟩)], [], []⟩ "b2" "A" ⟨.attack, some 50⟩ true
      = (⟨[("b2", ⟨"b2", .pve, ["A"], some ⟨5, 10, 15, 5⟩, [], .active, none, []⟩)],
          [], []⟩, .error "ReferenceError: turn is not defined") := by
  exact ⟨fun pid m act => rfl, fun pid m act => ⟨_, rfl⟩, rfl⟩

lemma capHistory_length_le {α : Type} (cap : ℕ) (h : List α) :
    (capHistory cap h).length ≤ cap := by
  unfold capHistory
  split
  case isTrue hc =>
    rw [List.length_drop]
    omega
  case isFalse hc =>
    omega

lemma getAssoc_recordMatch_self (hist : List (PlayerId × List MatchRecord))
    (pid : PlayerId) (rec : MatchRecord) :
    getAssoc (recordMatch hist pid rec) pid
      = some (capHistory 50 ((getAssoc hist pid).getD [] ++ [rec])) := by
  unfold recordMatch
  exact getAssoc_setAssoc_self _ _ _

lemma getAssoc_recordMatch_ne (hist : List (PlayerId × List MatchRecord))
    (pid q : PlayerId) (rec : MatchRecord) (h : q ≠ pid) :
    getAssoc (recordMatch hist pid rec) q = getAssoc hist q := by
  unfold recordMatch
  exact getAssoc_setAssoc_ne _ _ _ h _

lemma removePlayerFromBracket_not_mem (pid bid : PlayerId) (ps : List PlayerId) :
    ∀ (brackets : List (PlayerId × List PlayerId)),
      getAssoc (removePlayerFromBracket brackets pid) bid = some ps → pid ∉ ps
  | [], h => by simp [removePlayerFromBracket, getAssoc] at h
  | (a, l) :: rest, h => by
    rw [removePlayerFromBracket, List.map_cons] at h
    dsimp only at h
    by_cases hq : a = bid
    · rw [getAssoc, if_pos hq] at h
      injection h with h
      rw [← h]
      simp
    · rw [getAssoc, if_neg hq] at h
      exact removePlayerFromBracket_not_mem pid bid ps rest h

/-- C8 counterexample: a queued request whose own `criteria.maxWaitTime`
(1000 ms) is long exceeded at age 2000 ms is left untouched by the
processing tick — the loop compares the age against the globally
configured `maxMatchmakingTime` (300000 ms), not the request's criteria —
so the state (queue, brackets, events) is completely unchanged and no
expiry is reported. -/
theorem processEntry_criteria_maxWaitTime_ignored_cx :
    (2000 : ℤ) - (0 : ℤ) >
      (MatchRequest.mk "r1" ⟨"A", 10, "net1"⟩ 0 ⟨5, 15, true, 1000, 100⟩).criteria.maxWaitTime ∧
    processEntry 300000 2000 (fun _ _ => none)
      ⟨[("A", ⟨"r1", ⟨"A", 10, "net1"⟩, 0, ⟨5, 15, true, 1000, 100⟩⟩)],
        [("bracket_1_10", ["A"])], [], []⟩
      "A" ⟨"r1", ⟨"A", 10, "net1"⟩, 0, ⟨5, 15, true, 1000, 100⟩⟩
      = ⟨[("A", ⟨"r1", ⟨"A", 10, "net1"⟩, 0, ⟨5, 15, true, 1000, 100⟩⟩)],
        [("bracket_1_10", ["A"])], [], []⟩ := by
  constructor
  · decide
  · rfl

/-- C8 (amended): the processing tick expires a request exactly when its
age exceeds the globally configured `maxMatchmakingTime` (not the
request's own criteria value): the request is then removed from the queue
and from every level bracket and `matchExpired` is emitted; while the age
is within the global limit and no opponent is found, the request (and the
whole state) stays untouched. -/
theorem processEntry_expiry (cfgMaxWaitTime now : ℤ)
    (find : QueueState → MatchRequest → Option Player)
    (st : QueueState) (pid : PlayerId) (req : MatchRequest) :
    (now - req.timestamp > cfgMaxWaitTime →
      getAssoc (processEntry cfgMaxWaitTime now find st pid req).matchQueue pid
        = none ∧
      (∀ bid ps, getAssoc (processEntry cfgMaxWaitTime now find st pid
          req).levelBrackets bid = some ps → pid ∉ ps) ∧
      (processEntry cfgMaxWaitTime now find st pid req).events
        = st.events ++ [.matchExpired req]) ∧
    (¬ now - req.timestamp > cfgMaxWaitTime → find st req = none →
      processEntry cfgMaxWaitTime now find st pid req = st) := by
  constructor
  · intro hexp
    have hpe : processEntry cfgMaxWaitTime now find st pid req =
        { st with matchQueue := eraseAssoc st.matchQueue pid,
                  levelBrackets := removePlayerFromBracket st.levelBrackets pid,
                  events := st.events ++ [.matchExpired req] } := by
      unfold processEntry
      rw [if_pos hexp]
    rw [hpe]
    exact ⟨getAssoc_eraseAssoc_self pid _,
      fun bid ps h => removePlayerFromBracket_not_mem pid bid ps _ h, rfl⟩
  · intro hexp hfind
    unfold processEntry
    rw [if_neg hexp, hfind]

/-- Witness for C8's amended theorem: a request submitted at time 0 is
expired by a tick at time 300001 with the default global limit 300000, and
kept (state unchanged, opponent-less) by a tick at time 5. -/
theorem processEntry_expiry_okwitness :
    getAssoc (processEntry 300000 300001 (fun _ _ => none)
      ⟨[("A", ⟨"r1", ⟨"A", 10, "net1"⟩, 0, ⟨5, 15, true, 300000, 100⟩⟩)],
        [("bracket_1_10", ["A"])], [], []⟩
      "A" ⟨"r1", ⟨"A", 10, "net1"⟩, 0, ⟨5, 15, true, 300000, 100⟩⟩).matchQueue "A"
      = none ∧
    processEntry 300000 5 (fun _ _ => none)
      ⟨[("A", ⟨"r1", ⟨"A", 10, "net1"⟩, 0, ⟨5, 15, true, 300000, 100⟩⟩)],
        [("bracket_1_10", ["A"])], [], []⟩
      "A" ⟨"r1", ⟨"A", 10, "net1"⟩, 0, ⟨5, 15, true, 300000, 100⟩⟩
      = ⟨[("A", ⟨"r1", ⟨"A", 10, "net1"⟩, 0, ⟨5, 15, true, 300000, 100⟩⟩)],
        [("bracket_1_10", ["A"])], [], []⟩ := by
  constructor
  · exact ((processEntry_expiry 300000 300001 (fun _ _ => none) _ "A" _).1
      (by decide)).1
  · exact (processEntry_expiry 300000 5 (fun _ _ => none) _ "A" _).2
      (by decide) rfl

/-- C3 counterexample: requester `"A"` and opponent `"B"` are both queued;
processing `"A"`'s entry pairs them, but only `"A"`'s request is removed —
`"B"`'s pending request is still in the queue afterwards, contradicting
the claim that both players' requests are removed. -/
theorem processEntry_opponent_not_dequeued_cx :
    (processEntry 300000 100 (fun _ _ => some ⟨"B", 11, "net2"⟩)
      ⟨[("A", ⟨"r1", ⟨"A", 10, "net1"⟩, 0, ⟨5, 15, true, 300000, 100⟩⟩),
        ("B", ⟨"r2", ⟨"B", 11, "net2"⟩, 0, ⟨6, 16, true, 300000, 100⟩⟩)],
        [], [], []⟩
      "A" ⟨"r1", ⟨"A", 10, "net1"⟩, 0, ⟨5, 15, true, 300000, 100⟩⟩).matchQueue
      = [("B", ⟨"r2", ⟨"B", 11, "net2"⟩, 0, ⟨6, 16, true, 300000, 100⟩⟩)] := by
  rfl

/-- C3 (amended): when the tick finds an opponent for a queued request,
the requester's request is removed from the queue (the opponent's queue
entry, and every other entry, is untouched), the pairing is recorded in
both players' recent-match histories with each history capped at the last
50 entries, and a `matchCreated` event is emitted. -/
theorem processEntry_paired (cfgMaxWaitTime now : ℤ)
    (find : QueueState → MatchRequest → Option Player)
    (st : QueueState) (pid : PlayerId) (req : MatchRequest) (opp : Player)
    (hexp : ¬ now - req.timestamp > cfgMaxWaitTime)
    (hfind : find st req = some opp)
    (hne : req.player.globalId ≠ opp.globalId) :
    getAssoc (processEntry cfgMaxWaitTime now find st pid req).matchQueue pid
      = none ∧
    (∀ q, q ≠ pid →
      getAssoc (processEntry cfgMaxWaitTime now find st pid req).matchQueue q
        = getAssoc st.matchQueue q) ∧
    getAssoc (processEntry cfgMaxWaitTime now find st pid req).matchHistory
        req.player.globalId
      = some (capHistory 50 ((getAssoc st.matchHistory req.player.globalId).getD []
          ++ [⟨opp.globalId, now, "pending"⟩])) ∧
    getAssoc (processEntry cfgMaxWaitTime now find st pid req).matchHistory
        opp.globalId
      = some (capHistory 50 ((getAssoc st.matchHistory opp.globalId).getD []
          ++ [⟨req.player.globalId, now, "pending"⟩])) ∧
    (∀ h2, getAssoc (processEntry cfgMaxWaitTime now find st pid req).matchHistory
        req.player.globalId = some h2 → h2.length ≤ 50) ∧
    (processEntry cfgMaxWaitTime now find st pid req).events
      = st.events ++ [.matchCreated ⟨req.player, opp, now⟩] := by
  have hpe : processEntry cfgMaxWaitTime now find st pid req =
      { createMatch st req opp now with
          matchQueue := eraseAssoc (createMatch st req opp now).matchQueue pid,
          levelBrackets := removePlayerFromBracket
            (createMatch st req opp now).levelBrackets pid } := by
    unfold processEntry
    rw [if_neg hexp, hfind]
  have hcmq : (createMatch st req opp now).matchQueue = st.matchQueue := rfl
  have hcmh : (createMatch st req opp now).matchHistory
      = recordMatch (recordMatch st.matchHistory req.player.globalId
          ⟨opp.globalId, now, "pending"⟩) opp.globalId
          ⟨req.player.globalId, now, "pending"⟩ := rfl
  have hreq : getAssoc (recordMatch (recordMatch st.matchHistory
      req.player.globalId ⟨opp.globalId, now, "pending"⟩) opp.globalId
      ⟨req.player.globalId, now, "pending"⟩) req.player.globalId
      = some (capHistory 50 ((getAssoc st.matchHistory req.player.globalId).getD []
          ++ [⟨opp.globalId, now, "pending"⟩])) := by
    rw [getAssoc_recordMatch_ne _ _ _ _ hne, getAssoc_recordMatch_self]
  refine ⟨?_, ?_, ?_, ?_, ?_, ?_⟩
  · rw [hpe]
    exact getAssoc_eraseAssoc_self pid _
  · intro q hq
    rw [hpe]
    show getAssoc (eraseAssoc (createMatch st req opp now).matchQueue pid) q
      = getAssoc st.matchQueue q
    rw [getAssoc_eraseAssoc_ne pid q hq, hcmq]
  · rw [hpe]
    show getAssoc (createMatch st req opp now).matchHistory req.player.globalId
      = _
    rw [hcmh, hreq]
  · rw [hpe]
    show getAssoc (createMatch st req opp now).matchHistory opp.globalId = _
    rw [hcmh, getAssoc_recordMatch_self,
      getAssoc_recordMatch_ne _ _ _ _ (Ne.symm hne)]
  · intro h2 hh2
    rw [hpe] at hh2
    rw [show ({ createMatch st req opp now with
        matchQueue := eraseAssoc (createMatch st req opp now).matchQueue pid,
        levelBrackets := removePlayerFromBracket
          (createMatch st req opp now).levelBrackets pid } : QueueState).matchHistory
      = (createMatch st req opp now).matchHistory from rfl, hcmh, hreq] at hh2
    injection hh2 with hh2
    rw [← hh2]
    exact capHistory_length_le 50 _
  · rw [hpe]
    rfl

/-- Witness for C3's amended theorem: pairing queued `"A"` with `"B"`
removes `"A"`'s request, keeps `"B"`'s, records both histories and emits
`matchCreated`. -/
theorem processEntry_paired_okwitness :
    getAssoc (processEntry 300000 100 (fun _ _ => some ⟨"B", 11, "net2"⟩)
      ⟨[("A", ⟨"r1", ⟨"A", 10, "net1"⟩, 0, ⟨5, 15, true, 300000, 100⟩⟩),
        ("B", ⟨"r2", ⟨"B", 11, "net2"⟩, 0, ⟨6, 16, true, 300000, 100⟩⟩)],
        [], [], []⟩
      "A" ⟨"r1", ⟨"A", 10, "net1"⟩, 0, ⟨5, 15, true, 300000, 100⟩⟩).matchQueue "A"
      = none ∧
    getAssoc (processEntry 300000 100 (fun _ _ => some ⟨"B", 11, "net2"⟩)
      ⟨[("A", ⟨"r1", ⟨"A", 10, "net1"⟩, 0, ⟨5, 15, true, 300000, 100⟩⟩),
        ("B", ⟨"r2", ⟨"B", 11, "net2"⟩, 0, ⟨6, 16, true, 300000, 100⟩⟩)],
        [], [], []⟩
      "A" ⟨"r1", ⟨"A", 10, "net1"⟩, 0, ⟨5, 15, true, 300000, 100⟩⟩).matchQueue "B"
      = getAssoc ([("A", ⟨"r1", ⟨"A", 10, "net1"⟩, 0, ⟨5, 15, true, 300000, 100⟩⟩),
        ("B", ⟨"r2", ⟨"B", 11, "net2"⟩, 0, ⟨6, 16, true, 300000, 100⟩⟩)] :
          List (PlayerId × MatchRequest)) "B" ∧
    (processEntry 300000 100 (fun _ _ => some ⟨"B", 11, "net2"⟩)
      ⟨[("A", ⟨"r1", ⟨"A", 10, "net1"⟩, 0, ⟨5, 15, true, 300000, 100⟩⟩),
        ("B", ⟨"r2", ⟨"B", 11, "net2"⟩, 0, ⟨6, 16, true, 300000, 100⟩⟩)],
        [], [], []⟩
      "A" ⟨"r1", ⟨"A", 10, "net1"⟩, 0, ⟨5, 15, true, 300000, 100⟩⟩).events
      = [] ++ [.matchCreated ⟨⟨"A", 10, "net1"⟩, ⟨"B", 11, "net2"⟩, 100⟩] := by
  have h := processEntry_paired 300000 100 (fun _ _ => some ⟨"B", 11, "net2"⟩)
    ⟨[("A", ⟨"r1", ⟨"A", 10, "net1"⟩, 0, ⟨5, 15, true, 300000, 100⟩⟩),
      ("B", ⟨"r2", ⟨"B", 11, "net2"⟩, 0, ⟨6, 16, true, 300000, 100⟩⟩)],
      [], [], []⟩
    "A" ⟨"r1", ⟨"A", 10, "net1"⟩, 0, ⟨5, 15, true, 300000, 100⟩⟩
    ⟨"B", 11, "net2"⟩ (by decide) rfl (by decide)
  exact ⟨h.1, h.2.1 "B" (by decide), h.2.2.2.2.2⟩

end MultiRPG
